import Mathlib

/-!
Verification development for the `luna` network address-space manager
(`src/luna/network.py`, class `Network`).

The class `Network` itself is embedded faithfully from the source.  The
helper modules `utils.ip`, `utils.freelist` and the base class `Base` are
not part of the sources; their behaviour is modelled from the
specification (each such definition carries a doc comment starting with
`Modelled from the spec:`).

Conventions of the embedding:
* dotted-quad strings that only travel through conversion functions are
  modelled by their 32-bit numeric value (the conversion pair
  `ntoa`/`aton` is a bijection on 32-bit values);
* the mongo store is modelled by explicit state passing: every mutating
  operation returns its result, the record state after the operation and
  the list of update calls it issued (`WriteEvent`);
* the outcome of a mongo update call is a parameter (`updErr`, `saveErr`)
  so that behaviour under persistence failure can be stated;
* Python exceptions become the `Except PyErr` monad, `None` results stay
  explicit constructors.
-/

set_option maxRecDepth 8000

namespace Luna

/-- One inclusive free-list range record `{start, end}`; the `end` key of
the source is called `stop` here because `end` is a reserved word. -/
structure FreeRange where
  start : Nat
  stop : Nat
  deriving DecidableEq

/-- The `usedby` reverse-link index of a subnet record: entity ids per
kind (`group`, `switch`, `otherdev`). -/
structure UsageLinks where
  group : List Nat
  switch : List Nat
  otherdev : List Nat
  deriving DecidableEq

/-- The persisted subnet record (`net = self._get_json()` in the source).
`NETWORK` holds the numeric masked base, `ns_ip` the relative offset of
the name-server address (`None` when never assigned), `usedby` the
reverse-link index (`None` when the key is absent from the document). -/
structure NetRecord where
  id : Option Nat
  name : String
  NETWORK : Nat
  PREFIX : Nat
  freelist : List FreeRange
  ns_hostname : String
  ns_ip : Option Nat
  usedby : Option UsageLinks
  deriving DecidableEq

/-- Python exceptions that can escape the modelled operations. -/
inductive PyErr where
  | outOfRange
  | typeErr
  | unboundLocal
  deriving DecidableEq

/-- A dynamically typed field value. -/
inductive Val where
  | vstr (s : String)
  | vnum (n : Nat)
  deriving DecidableEq

/-- One update call issued against the mongo collection. -/
inductive WriteEvent where
  | insert (rec : NetRecord)
  | fullRecord (rec : NetRecord)
  | freeListOnly (flist : List FreeRange)
  deriving DecidableEq

/-- Modelled from the spec: `AddressMath` dotted-quad rendering of a
32-bit value (used by `utils.ip.ntoa`). -/
def ntoa (n : Nat) : String :=
  toString (n / 16777216 % 256) ++ "." ++ toString (n / 65536 % 256) ++ "."
    ++ toString (n / 256 % 256) ++ "." ++ toString (n % 256)

/-- Modelled from the spec: `utils.ip.reltoa`, `toAbsolute` composed with
dotted-quad rendering. -/
def reltoa (base rel : Nat) : String := ntoa (base + rel)

/-- Modelled from the spec: `utils.ip.atorel` (`toOffset`): fails with
`OutOfRange` when the absolute address is outside
`[base, base + 2^(32-p) - 1]`, otherwise yields the relative offset. -/
def atorel (addr base p : Nat) : Option Nat :=
  if base ≤ addr ∧ addr ≤ base + (1 <<< (32 - p)) - 1 then some (addr - base) else none

/-- Modelled from the spec: `utils.ip.get_num_subnet` (`numSubnet`) masks
an address down to its network base for the given CIDR length. -/
def get_num_subnet (addr p : Nat) : Nat := addr - addr % (1 <<< (32 - p))

/-- Modelled from the spec: dotted-quad parsing, inverse of `ntoa`. -/
def atonAux : List Char → Nat → Nat → Nat
  | [], cur, acc => acc * 256 + cur
  | c :: rest, cur, acc =>
    if c = '.' then atonAux rest 0 (acc * 256 + cur)
    else atonAux rest (cur * 10 + (c.toNat - 48)) acc

/-- Modelled from the spec: `utils.ip.aton`. -/
def aton (s : String) : Nat := atonAux s.data 0 0

/-- Numeric reading of a dynamically typed value (the source feeds both
strings and ints to `get_num_subnet` and the shift expressions). -/
def valNum : Val → Nat
  | .vnum n => n
  | .vstr s => aton s

/-- Python truthiness of an optional integer: `None` and `0` are falsy. -/
def truthy : Option Nat → Bool
  | some (_ + 1) => true
  | _ => false

/-- Python-2 ordering used by `ip2 <= ip1`: `None` compares below every
integer. -/
def pyLe : Option Nat → Option Nat → Bool
  | none, _ => true
  | some _, none => false
  | some a, some b => a ≤ b

/-- Pieces of the free list left after removing the span `[s, e]`
(a range straddling the span is split in up to two parts). -/
def unfree_pieces (s e : Nat) : List FreeRange → List FreeRange
  | [] => []
  | r :: rest =>
    (if r.stop < s ∨ e < r.start then [r]
     else (if r.start < s then [⟨r.start, s - 1⟩] else [])
       ++ (if e < r.stop then [⟨e + 1, r.stop⟩] else []))
    ++ unfree_pieces s e rest

/-- Number of addresses of the span `[s, e]` that are free in the list. -/
def unfree_removed (s e : Nat) : List FreeRange → Nat
  | [] => 0
  | r :: rest => (min r.stop e + 1 - max r.start s) + unfree_removed s e rest

/-- Modelled from the spec: `utils.freelist.unfree_range`
(`reserveRange`): removes the intersection of the requested span with
every free range and reports whether the whole span was free; the
effective span is `[ip1, ip2 or ip1]` (Python truthiness). -/
def unfree_range (flist : List FreeRange) (ip1 : Nat) (ip2 : Option Nat) :
    List FreeRange × Bool :=
  let e := match ip2 with
    | some (k + 1) => k + 1
    | _ => ip1
  (unfree_pieces ip1 e flist, unfree_removed ip1 e flist == e + 1 - ip1)

/-- Modelled from the spec: `utils.freelist.next_free` (`reserveNext`)
takes the lowest offset of the first free range, shrinking or dropping
that range; `none` when the list is exhausted. -/
def next_free : List FreeRange → List FreeRange × Option Nat
  | [] => ([], none)
  | r :: rest =>
    if r.start < r.stop then (⟨r.start + 1, r.stop⟩ :: rest, some r.start)
    else (rest, some r.start)

/-- Insert the span `[s, e]` into the free list, merging overlapping or
adjacent ranges. -/
def insertMerge (s e : Nat) : List FreeRange → List FreeRange
  | [] => [⟨s, e⟩]
  | r :: rest =>
    if r.stop + 1 < s then r :: insertMerge s e rest
    else if e + 1 < r.start then ⟨s, e⟩ :: r :: rest
    else insertMerge (min s r.start) (max e r.stop) rest

/-- Modelled from the spec: `utils.freelist.free_range` (`releaseRange`)
returns the merged list and the count of newly freed addresses; the
effective span is `[ip1, ip2 or ip1]` (Python truthiness). -/
def free_range (flist : List FreeRange) (ip1 : Nat) (ip2 : Option Nat) :
    List FreeRange × Nat :=
  let e := match ip2 with
    | some (k + 1) => k + 1
    | _ => ip1
  (insertMerge ip1 e flist, (e + 1 - ip1) - unfree_removed ip1 e flist)

/-- Modelled from the spec: `utils.freelist.set_upper_limit` (`rebound`)
drops free ranges wholly above the new bound and truncates one crossing
it. -/
def set_upper_limit : List FreeRange → Nat → List FreeRange
  | [], _ => []
  | r :: rest, limit =>
    if limit < r.start then set_upper_limit rest limit
    else ⟨r.start, min r.stop limit⟩ :: set_upper_limit rest limit

/-- An ip argument of `reserve_ip` / `release_ip`: either an integer that
is already relative (non-string in the source) or an absolute
dotted-quad string, modelled by its numeric value. -/
inductive IpArg where
  | rel (n : Nat)
  | abs (a : Nat)
  deriving DecidableEq

/-- The `type(ip) is str` conversion prologue shared by `reserve_ip` and
`release_ip`: absolute arguments go through `atorel`, whose failure is a
raised `OutOfRange`. -/
def conv (net : NetRecord) : Option IpArg → Except PyErr (Option Nat)
  | none => .ok none
  | some (.rel n) => .ok (some n)
  | some (.abs a) =>
    match atorel a net.NETWORK net.PREFIX with
    | some r => .ok (some r)
    | none => .error .outOfRange

/-- `Network._save_free_list`: refuses when the record id is gone,
otherwise issues one freelist-only update and returns `not res.err`
(`saveErr` is the store answer; on error the stored record is kept). -/
def save_free_list (saveErr : Bool) (net : NetRecord) (flist : List FreeRange) :
    Option Bool × NetRecord × List WriteEvent :=
  match net.id with
  | none => (none, net, [])
  | some _ =>
    (some (!saveErr), (if saveErr then net else { net with freelist := flist }),
      [WriteEvent.freeListOnly flist])

/-- Result of `Network.reserve_ip`: a raised exception, the `None` of the
range-order error, the `unfreed` flag of `unfree_range`, or the offset
allocated by `next_free`. -/
inductive ReserveResult where
  | exn (e : PyErr)
  | retNone
  | unfreed (b : Bool)
  | nextOffset (o : Option Nat)
  deriving DecidableEq

/-- `Network.reserve_ip`, embedded line by line from the source: convert
string arguments, reject `bool(ip2) and ip2 <= ip1`, reserve the given
range when `bool(ip1)`, otherwise fall back to `next_free` when
`ignore_errors`; when neither branch ran, `flist` is an unbound local
and its use raises. -/
def reserve_ip (saveErr : Bool) (net : NetRecord) (ip1 ip2 : Option IpArg)
    (ignore_errors : Bool) : ReserveResult × NetRecord × List WriteEvent :=
  match conv net ip1 with
  | .error e => (.exn e, net, [])
  | .ok v1 =>
    match conv net ip2 with
    | .error e => (.exn e, net, [])
    | .ok v2 =>
      if truthy v2 && pyLe v2 v1 then (.retNone, net, [])
      else
        match v1 with
        | some (n + 1) =>
          let fu := unfree_range net.freelist (n + 1) v2
          let sv := save_free_list saveErr net fu.1
          (.unfreed fu.2, sv.2.1, sv.2.2)
        | _ =>
          if ignore_errors then
            let fo := next_free net.freelist
            let sv := save_free_list saveErr net fo.1
            (.nextOffset fo.2, sv.2.1, sv.2.2)
          else (.exn .unboundLocal, net, [])

/-- Result of `Network.release_ip`: a raised exception, the `None` of the
range-order error, or the unconditional `True`. -/
inductive ReleaseResult where
  | exn (e : PyErr)
  | retNone
  | retTrue
  deriving DecidableEq

/-- `Network.release_ip`, embedded from the source: convert, reject
`bool(ip2) and ip2 <= ip1`, free the range, save, `return True`. -/
def release_ip (saveErr : Bool) (net : NetRecord) (ip1 : IpArg) (ip2 : Option IpArg) :
    ReleaseResult × NetRecord × List WriteEvent :=
  match conv net (some ip1) with
  | .error e => (.exn e, net, [])
  | .ok v1 =>
    match conv net ip2 with
    | .error e => (.exn e, net, [])
    | .ok v2 =>
      if truthy v2 && pyLe v2 v1 then (.retNone, net, [])
      else
        let n1 := match v1 with
          | some n => n
          | none => 0
        let fr := free_range net.freelist n1 v2
        let sv := save_free_list saveErr net fr.1
        (.retTrue, sv.2.1, sv.2.2)

/-- `Network.get`, embedded from the source; the `NETMASK` expression
keeps the Python grouping `((1 << 32) - 1) ^ ((1 << (33 - p) - 1) - 1)`
in which the subtraction binds tighter than the shift.  Reading `ns_ip`
of a record that has none raises (arithmetic on `None`); the tail case
is `Base.get`, modelled from the spec as returning raw stored values. -/
def Network.get (net : NetRecord) (key : String) : Except PyErr (Option Val) :=
  if key = "" then .ok none
  else if key = "NETWORK" then .ok (some (.vstr (ntoa net.NETWORK)))
  else if key = "NETMASK" then
    .ok (some (.vstr (ntoa (((1 <<< 32) - 1) ^^^ ((1 <<< ((33 - net.PREFIX) - 1)) - 1)))))
  else if key = "PREFIX" then .ok (some (.vnum net.PREFIX))
  else if key = "ns_ip" then
    match net.ns_ip with
    | none => .error .typeErr
    | some r => .ok (some (.vstr (reltoa net.NETWORK r)))
  else if key = "ns_hostname" then .ok (some (.vstr net.ns_hostname))
  else .ok none

/-- The `_keylist` of the class. -/
def keylist : List String := ["NETWORK", "PREFIX", "ns_hostname", "ns_ip"]

/-- The `key == 'ns_ip'` branch of `Network.set` plus the final update:
convert the new address, read the old one through `get` (swallowing any
exception), release it when truthy, reserve the new offset, re-read the
record and persist it with the new offset.  The old address obtained
from `get` is the absolute dotted-quad of the stored offset; it is kept
numerically (`NETWORK + offset`) here. -/
def setNsIp (updErr saveErr : Bool) (net : NetRecord) (value : Val) :
    Except PyErr (Option Bool) × NetRecord × List WriteEvent :=
  match atorel (valNum value) net.NETWORK net.PREFIX with
  | none => (.error .outOfRange, net, [])
  | some rel_ns_ip =>
    let old_ip : Option Nat :=
      match Network.get net "ns_ip" with
      | .ok (some (.vstr _)) => net.ns_ip
      | _ => none
    match old_ip with
    | some oldRel =>
      let rl := release_ip saveErr net (.abs (net.NETWORK + oldRel)) none
      match rl.1 with
      | .exn e => (.error e, rl.2.1, rl.2.2)
      | _ =>
        let rs := reserve_ip saveErr rl.2.1 (some (.rel rel_ns_ip)) none true
        match rs.1 with
        | .exn e => (.error e, rs.2.1, rl.2.2 ++ rs.2.2)
        | _ =>
          let net2 := { rs.2.1 with ns_ip := some rel_ns_ip }
          (.ok (some (!updErr)), (if updErr then rs.2.1 else net2),
            rl.2.2 ++ rs.2.2 ++ [WriteEvent.fullRecord net2])
    | none =>
      let rs := reserve_ip saveErr net (some (.rel rel_ns_ip)) none true
      match rs.1 with
      | .exn e => (.error e, rs.2.1, rs.2.2)
      | _ =>
        let net2 := { rs.2.1 with ns_ip := some rel_ns_ip }
        (.ok (some (!updErr)), (if updErr then rs.2.1 else net2),
          rs.2.2 ++ [WriteEvent.fullRecord net2])

/-- The `key == 'ns_hostname'` branch of `Network.set` plus the final
update. -/
def setHostname (updErr : Bool) (net : NetRecord) (value : Val) :
    Except PyErr (Option Bool) × NetRecord × List WriteEvent :=
  let net2 := { net with ns_hostname := match value with
    | .vstr s => s
    | .vnum n => toString n }
  (.ok (some (!updErr)), (if updErr then net else net2), [WriteEvent.fullRecord net2])

/-- The `key == 'NETWORK'` branch of `Network.set` plus the final update:
the base is re-masked against the current CIDR length, nothing else of
the record is recomputed. -/
def setNETWORK (updErr : Bool) (net : NetRecord) (value : Val) :
    Except PyErr (Option Bool) × NetRecord × List WriteEvent :=
  let net2 := { net with NETWORK := get_num_subnet (valNum value) net.PREFIX }
  (.ok (some (!updErr)), (if updErr then net else net2), [WriteEvent.fullRecord net2])

/-- The `key == 'PREFIX'` branch of `Network.set` plus the final update:
the free list is re-bounded at `2^(32-new)-1`, the base re-masked
against the new CIDR length, and both are part of the one update. -/
def setPREFIX (updErr : Bool) (net : NetRecord) (value : Val) :
    Except PyErr (Option Bool) × NetRecord × List WriteEvent :=
  let p := valNum value
  let net2 := { net with
    freelist := set_upper_limit net.freelist ((1 <<< (32 - p)) - 1),
    NETWORK := get_num_subnet net.NETWORK p,
    PREFIX := p }
  (.ok (some (!updErr)), (if updErr then net else net2), [WriteEvent.fullRecord net2])

/-- `Network.set`, embedded from the source: reject an empty key and a
key outside `_keylist`, then dispatch on the key as the source's
`if`/`elif` chain does.  `updErr` is the store answer to the final
full-record update, `saveErr` the answer to the freelist updates issued
through `release_ip` / `reserve_ip` on the `ns_ip` path. -/
def Network.set (updErr saveErr : Bool) (net : NetRecord) (key : String) (value : Val) :
    Except PyErr (Option Bool) × NetRecord × List WriteEvent :=
  if key = "" then (.ok none, net, [])
  else if !(keylist.contains key) then (.ok none, net, [])
  else if key = "ns_ip" then setNsIp updErr saveErr net value
  else if key = "ns_hostname" then setHostname updErr net value
  else if key = "NETWORK" then setNETWORK updErr net value
  else setPREFIX updErr net value

/-- Result of the create path of `Network.__init__`: the record as first
inserted, the record after the name-server reservation, and all store
calls issued. -/
structure CreateResult where
  inserted : NetRecord
  final : NetRecord
  writes : List WriteEvent
  deriving DecidableEq

/-- The record built and inserted by the create path of
`Network.__init__`: masked base, initial full free range
`[1, 2^(32-P)-2]`, the guessed hostname when none (or an empty one) was
given, no name-server offset yet (the id is the one the insert call
returns). -/
def createRec (name : String) (NETWORK PREFIX : Nat) (ns_hostname : Option String)
    (guessed : String) : NetRecord :=
  { id := some 1, name := name, NETWORK := get_num_subnet NETWORK PREFIX,
    PREFIX := PREFIX, freelist := [⟨1, (1 <<< (32 - PREFIX)) - 2⟩],
    ns_hostname := match ns_hostname with
      | none => guessed
      | some h => if h = "" then guessed else h,
    ns_ip := none, usedby := none }

/-- The create path of `Network.__init__`, embedded from the source:
insert the new record, then `set` the name-server address, defaulting to
`reltoa(num_subnet, flist[0].end)` (kept numerically) when no explicit
address was passed. -/
def Network.create (name : String) (NETWORK PREFIX : Nat) (ns_hostname : Option String)
    (ns_ip : Option Nat) (guessed : String) : Except PyErr CreateResult :=
  let rec0 := createRec name NETWORK PREFIX ns_hostname guessed
  let nsv := match ns_ip with
    | none => get_num_subnet NETWORK PREFIX + ((1 <<< (32 - PREFIX)) - 2)
    | some a => a
  match Network.set false false rec0 "ns_ip" (.vnum nsv) with
  | (.error e, _, _) => .error e
  | (.ok _, st, ws) => .ok ⟨rec0, st, WriteEvent.insert rec0 :: ws⟩

/-- The external entity lookups `resolve_used_ips` fans out to
(`Group.get_rel_ips_for_net`, `Switch.name` / `get_rel_ip`,
`OtherDev.name` / `get_ip`), abstracted as functions of the entity id. -/
structure EntityLookups where
  groupIps : Nat → List (String × Nat)
  switchName : Nat → String
  switchIp : Nat → Nat
  odevName : Nat → String
  odevIp : Nat → Nat

/-- Result of `resolve_used_ips`: the name-to-absolute-address mapping in
insertion order, the number of duplicate-name conflicts logged, and
whether the no-usage error was logged. -/
structure ResolveOut where
  out : List (String × String)
  conflicts : Nat
  noUsageErr : Bool
  deriving DecidableEq

/-- One insertion step of `add_to_out_dict` for a present offset: a name
already in the mapping is kept and the conflict counted, otherwise the
absolute form of the offset is appended. -/
def add_entry (NETWORK : Nat) (acc : List (String × String) × Nat) (name : String)
    (rel : Nat) : List (String × String) × Nat :=
  if (acc.1.lookup name).isSome then (acc.1, acc.2 + 1)
  else (acc.1 ++ [(name, reltoa NETWORK rel)], acc.2)

/-- `add_to_out_dict` of the source: first-write-wins with a counted
conflict; inserting an absent offset (`None`) raises inside the
`except` branch. -/
def add_to_out_dict (NETWORK : Nat) (acc : List (String × String) × Nat) (name : String)
    (rel : Option Nat) : Except PyErr (List (String × String) × Nat) :=
  if (acc.1.lookup name).isSome then .ok (acc.1, acc.2 + 1)
  else
    match rel with
    | none => .error .typeErr
    | some r => .ok (acc.1 ++ [(name, reltoa NETWORK r)], acc.2)

/-- The sequence of `(name, relative offset)` insertions produced by the
entity loops of `resolve_used_ips`, in loop order. -/
def entity_events (L : EntityLookups) (links : UsageLinks) : List (String × Nat) :=
  (links.group.map L.groupIps).flatten
    ++ links.switch.map (fun sid => (L.switchName sid, L.switchIp sid))
    ++ links.otherdev.map (fun oid => (L.odevName oid, L.odevIp oid))

/-- `Network.resolve_used_ips`, embedded from the source: a record with
no `usedby` key logs the no-usage error and returns the empty mapping;
otherwise every entity insertion runs through `add_to_out_dict` and the
own name-server entry is inserted last. -/
def resolve_used_ips (L : EntityLookups) (net : NetRecord) : Except PyErr ResolveOut :=
  match net.usedby with
  | none => .ok ⟨[], 0, true⟩
  | some links =>
    let acc := (entity_events L links).foldl
      (fun a e => add_entry net.NETWORK a e.1 e.2) ([], 0)
    match add_to_out_dict net.NETWORK acc net.ns_hostname net.ns_ip with
    | .error e => .error e
    | .ok (d, c) => .ok ⟨d, c, false⟩

/-- Membership of an offset in the free list. -/
def memFL (x : Nat) (flist : List FreeRange) : Prop :=
  ∃ r ∈ flist, r.start ≤ x ∧ x ≤ r.stop

/-- Well-formedness of a free list: nonempty ordered ranges, pairwise
disjoint and non-adjacent, sorted ascending (the invariant of the data
model section of the spec). -/
def flistWF : List FreeRange → Bool
  | [] => true
  | [r] => r.start ≤ r.stop
  | r :: s :: rest => r.start ≤ r.stop && r.stop + 1 < s.start && flistWF (s :: rest)

/-- A concrete well-formed record: the subnet 10.0.0.0/24 right after
creation of its free list, no name-server address assigned yet. -/
def net0 : NetRecord :=
  { id := some 1, name := "cluster0", NETWORK := 167772160, PREFIX := 24,
    freelist := [⟨1, 254⟩], ns_hostname := "master", ns_ip := none, usedby := none }

/-- Concrete entity lookups: both switches resolve to the name `node1`. -/
def L0 : EntityLookups :=
  { groupIps := fun _ => [], switchName := fun _ => "node1", switchIp := fun sid => sid,
    odevName := fun _ => "odev", odevIp := fun _ => 40 }

/-- `net0` with two switch usage links and a name-server offset. -/
def net3 : NetRecord :=
  { net0 with usedby := some ⟨[], [1, 2], []⟩, ns_ip := some 254 }

/-- `net0` with a `usedby` key whose every kind is empty. -/
def net4 : NetRecord :=
  { net0 with usedby := some ⟨[], [], []⟩, ns_ip := some 254 }

/-! ### Free-list helper lemmas -/

theorem flistWF_head (r : FreeRange) (rest : List FreeRange)
    (h : flistWF (r :: rest) = true) : r.start ≤ r.stop := by
  cases rest with
  | nil => simpa [flistWF] using h
  | cons s rest2 =>
    simp only [flistWF, Bool.and_eq_true, decide_eq_true_eq] at h
    exact h.1.1

theorem flistWF_head_le : ∀ (rest : List FreeRange) (r : FreeRange),
    flistWF (r :: rest) = true → ∀ x, memFL x (r :: rest) → r.start ≤ x
  | [], r, h, x, hx => by
    obtain ⟨q, hq, h1, h2⟩ := hx
    rw [List.mem_singleton] at hq
    subst hq
    exact h1
  | s :: rest2, r, h, x, hx => by
    simp only [flistWF, Bool.and_eq_true, decide_eq_true_eq] at h
    obtain ⟨⟨hrs, hadj⟩, hwf⟩ := h
    obtain ⟨q, hq, h1, h2⟩ := hx
    rcases List.mem_cons.mp hq with rfl | hq2
    · exact h1
    · have hs := flistWF_head_le rest2 s hwf x ⟨q, hq2, h1, h2⟩
      omega

theorem next_free_snd (r : FreeRange) (rest : List FreeRange) :
    (next_free (r :: rest)).2 = some r.start := by
  simp only [next_free]
  split <;> rfl

theorem next_free_lowest (flist : List FreeRange) (h : flistWF flist = true) (k : Nat)
    (hk : (next_free flist).2 = some k) :
    memFL k flist ∧ ∀ x, memFL x flist → k ≤ x := by
  cases flist with
  | nil => simp [next_free] at hk
  | cons r rest =>
    rw [next_free_snd] at hk
    injection hk with hk
    subst hk
    exact ⟨⟨r, List.mem_cons_self r rest, Nat.le_refl _, flistWF_head r rest h⟩,
      flistWF_head_le rest r h⟩

/-! ### C5 -/

/-- C5 counterexample: with `ip1` at relative offset 5 and `ip2` the
absolute base address of the subnet (relative offset 0, hence
`0 <= 5`), `reserve_ip` does not fail with the range-order error: the
Python truthiness test `bool(ip2)` skips the guard for offset 0, the
span `[5, 5]` is reserved and the free list is modified. -/
theorem reserve_ip_zero_ip2_cex :
    atorel 167772160 net0.NETWORK net0.PREFIX = some 0
    ∧ (0 : Nat) ≤ 5
    ∧ (reserve_ip false net0 (some (.rel 5)) (some (.abs 167772160)) true).1
        = .unfreed true
    ∧ (reserve_ip false net0 (some (.rel 5)) (some (.abs 167772160)) true).1 ≠ .retNone
    ∧ (reserve_ip false net0 (some (.rel 5)) (some (.abs 167772160)) true).2.1.freelist
        = [⟨1, 4⟩, ⟨6, 254⟩] := by
  decide

/-- C5 amended: when both addresses are given and the second converts to
a NONZERO relative offset less than or equal to the first, `reserve_ip`
and `release_ip` fail with the range-order error (`None`), leave the
record untouched and issue no store write. -/
theorem invalid_range_guard (net : NetRecord) (saveErr : Bool) (ip1 ip2 : IpArg)
    (ie : Bool) (v1 v2 : Nat) (h1 : conv net (some ip1) = .ok (some v1))
    (h2 : conv net (some ip2) = .ok (some v2)) (hz : v2 ≠ 0) (hle : v2 ≤ v1) :
    reserve_ip saveErr net (some ip1) (some ip2) ie = (.retNone, net, [])
    ∧ release_ip saveErr net ip1 (some ip2) = (.retNone, net, []) := by
  obtain ⟨k, rfl⟩ := Nat.exists_eq_succ_of_ne_zero hz
  have hg : (truthy (some (k + 1)) && pyLe (some (k + 1)) (some v1)) = true := by
    simp [truthy, pyLe, hle]
  constructor
  · simp [reserve_ip, h1, h2, hg]
  · simp [release_ip, h1, h2, hg]

/-- Witness for the amended C5 at offsets 9 and 5 of net0. -/
theorem invalid_range_guard_witness :
    reserve_ip false net0 (some (.rel 9)) (some (.rel 5)) true = (.retNone, net0, [])
    ∧ release_ip false net0 (.rel 9) (some (.rel 5)) = (.retNone, net0, []) :=
  invalid_range_guard net0 false (.rel 9) (.rel 5) true 9 5 rfl rfl
    (by decide) (by decide)

/-! ### C8 -/

/-- C8: setting the base field re-masks the given value against the
current CIDR length, leaves the free list (and the CIDR length)
unchanged and issues exactly one full-record update, whose payload
differs from the loaded record only in the masked base. -/
theorem set_NETWORK_frame (net : NetRecord) (updErr : Bool) (v : Val) :
    (Network.set updErr false net "NETWORK" v).1 = .ok (some (!updErr))
    ∧ (Network.set updErr false net "NETWORK" v).2.1.freelist = net.freelist
    ∧ (Network.set updErr false net "NETWORK" v).2.1.PREFIX = net.PREFIX
    ∧ (Network.set updErr false net "NETWORK" v).2.2
        = [WriteEvent.fullRecord
            { net with NETWORK := get_num_subnet (valNum v) net.PREFIX }] := by
  refine ⟨rfl, ?_, ?_, rfl⟩ <;> cases updErr <;> rfl

/-! ### C9 -/

/-- C9: when the first address of `reserve_ip` converts to relative
offset 0, the truthiness test `bool(ip1)` treats it as absent: with
`ignore_errors` the call allocates via `next_free` (the lowest free
offset, under the free-list invariant) instead of reserving offset 0,
and without `ignore_errors` the local `flist` is unbound and its use
raises before any store write. -/
theorem reserve_ip_offset_zero (net : NetRecord) (saveErr : Bool) (ip1 : IpArg)
    (h0 : conv net (some ip1) = .ok (some 0)) (hwf : flistWF net.freelist = true) :
    reserve_ip saveErr net (some ip1) none false = (.exn .unboundLocal, net, [])
    ∧ (reserve_ip saveErr net (some ip1) none true).1
        = .nextOffset (next_free net.freelist).2
    ∧ (reserve_ip saveErr net (some ip1) none true).2.2
        = (if net.id.isSome then [WriteEvent.freeListOnly (next_free net.freelist).1]
           else [])
    ∧ ∀ k, (next_free net.freelist).2 = some k →
        memFL k net.freelist ∧ ∀ x, memFL x net.freelist → k ≤ x := by
  refine ⟨?_, ?_, ?_, fun k hk => next_free_lowest net.freelist hwf k hk⟩
  · unfold reserve_ip
    rw [h0]
    rfl
  · unfold reserve_ip
    rw [h0]
    rfl
  · unfold reserve_ip
    rw [h0]
    show (save_free_list saveErr net (next_free net.freelist).1).2.2 = _
    unfold save_free_list
    cases hid : net.id <;> rfl

/-- Witness for C9 at net0 and the relative address 0. -/
theorem reserve_ip_offset_zero_witness :
    reserve_ip false net0 (some (.rel 0)) none false = (.exn .unboundLocal, net0, [])
    ∧ (reserve_ip false net0 (some (.rel 0)) none true).1
        = .nextOffset (next_free net0.freelist).2
    ∧ (reserve_ip false net0 (some (.rel 0)) none true).2.2
        = (if net0.id.isSome then [WriteEvent.freeListOnly (next_free net0.freelist).1]
           else [])
    ∧ ∀ k, (next_free net0.freelist).2 = some k →
        memFL k net0.freelist ∧ ∀ x, memFL x net0.freelist → k ≤ x :=
  reserve_ip_offset_zero net0 false (.rel 0) rfl rfl

/-! ### C10 -/

/-- C10: whenever the range-order guard passes, `release_ip` returns
`True`, whatever the freed count computed by `free_range` and whatever
the store answers to the free-list update (both `saveErr` and the
record, id included, are universally quantified and do not occur in the
conclusion). -/
theorem release_ip_always_true (net : NetRecord) (saveErr : Bool) (ip1 : IpArg)
    (ip2 : Option IpArg) (v1 : Nat) (v2 : Option Nat)
    (h1 : conv net (some ip1) = .ok (some v1)) (h2 : conv net ip2 = .ok v2)
    (hgate : (truthy v2 && pyLe v2 (some v1)) = false) :
    (release_ip saveErr net ip1 ip2).1 = .retTrue := by
  simp [release_ip, h1, h2, hgate]

/-- Witness for C10: releasing offset 10 of net0 while the store rejects
the free-list update still returns `True`. -/
theorem release_ip_always_true_witness :
    (release_ip true net0 (.rel 10) none).1 = .retTrue :=
  release_ip_always_true net0 true (.rel 10) none 10 none rfl rfl rfl

/-! ### C6 -/

/-- C6: for any stored CIDR length p between 1 and 32, reading the
netmask yields the dotted-quad form of `(2^32 - 1) XOR (2^(32-p) - 1)`
(the Python source writes the second operand `(1 << (33 - p) - 1) - 1`,
whose shift amount is `(33 - p) - 1 = 32 - p` by operator precedence),
and that integer is the mask with the top p bits set and the low 32-p
bits clear, namely `2^32 - 2^(32-p)`. -/
theorem get_NETMASK_formula (net : NetRecord) (h1 : 1 ≤ net.PREFIX)
    (h2 : net.PREFIX ≤ 32) :
    Network.get net "NETMASK"
      = .ok (some (.vstr (ntoa ((2 ^ 32 - 1) ^^^ (2 ^ (32 - net.PREFIX) - 1)))))
    ∧ (2 ^ 32 - 1) ^^^ (2 ^ (32 - net.PREFIX) - 1) = 2 ^ 32 - 2 ^ (32 - net.PREFIX) := by
  have e1 : (1 <<< 32) = 2 ^ 32 := Nat.one_shiftLeft 32
  have e2 : (1 <<< ((33 - net.PREFIX) - 1)) = 2 ^ (32 - net.PREFIX) := by
    rw [Nat.one_shiftLeft]
    congr 1
    omega
  constructor
  · show Except.ok (some (Val.vstr (ntoa
        (((1 <<< 32) - 1) ^^^ ((1 <<< ((33 - net.PREFIX) - 1)) - 1))))) = _
    rw [e1, e2]
  · rcases Nat.exists_eq_add_of_le h1 with ⟨q, hq⟩
    have hq32 : q ≤ 31 := by omega
    rw [hq]
    interval_cases q <;> decide

/-- Witness for C6 at net0 (prefix 24): the mask is 255.255.255.0. -/
theorem get_NETMASK_formula_witness :
    (Network.get net0 "NETMASK"
        = .ok (some (.vstr (ntoa ((2 ^ 32 - 1) ^^^ (2 ^ (32 - net0.PREFIX) - 1)))))
      ∧ (2 ^ 32 - 1) ^^^ (2 ^ (32 - net0.PREFIX) - 1) = 2 ^ 32 - 2 ^ (32 - net0.PREFIX))
    ∧ ntoa ((2 ^ 32 - 1) ^^^ (2 ^ (32 - net0.PREFIX) - 1)) = "255.255.255.0" :=
  ⟨get_NETMASK_formula net0 (by decide) (by decide), by decide⟩

/-! ### C4 -/

/-- C4: setting the CIDR length to p recomputes the upper bound
`2^(32-p)-1`, re-bounds the free list at it, re-masks the base against
the new length, and persists prefix, base and re-bounded free list
together in the one full-record update. -/
theorem set_PREFIX_rebound (net : NetRecord) (updErr : Bool) (p : Nat) (_hp : p ≤ 32) :
    (Network.set updErr false net "PREFIX" (.vnum p)).1 = .ok (some (!updErr))
    ∧ (Network.set updErr false net "PREFIX" (.vnum p)).2.2
        = [WriteEvent.fullRecord { net with
            freelist := set_upper_limit net.freelist (2 ^ (32 - p) - 1),
            NETWORK := get_num_subnet net.NETWORK p,
            PREFIX := p }]
    ∧ (updErr = false →
        (Network.set updErr false net "PREFIX" (.vnum p)).2.1
          = { net with
              freelist := set_upper_limit net.freelist (2 ^ (32 - p) - 1),
              NETWORK := get_num_subnet net.NETWORK p,
              PREFIX := p }) := by
  have e : (1 <<< (32 - p)) = 2 ^ (32 - p) := Nat.one_shiftLeft _
  refine ⟨rfl, ?_, ?_⟩
  · show [WriteEvent.fullRecord { net with
        freelist := set_upper_limit net.freelist ((1 <<< (32 - p)) - 1),
        NETWORK := get_num_subnet net.NETWORK p,
        PREFIX := p }] = _
    rw [e]
  · rintro rfl
    show { net with
        freelist := set_upper_limit net.freelist ((1 <<< (32 - p)) - 1),
        NETWORK := get_num_subnet net.NETWORK p,
        PREFIX := p } = _
    rw [e]

/-- Witness for C4: net0 re-bounded from /24 to /25. -/
theorem set_PREFIX_rebound_witness :
    (Network.set false false net0 "PREFIX" (.vnum 25)).1 = .ok (some (!false))
    ∧ (Network.set false false net0 "PREFIX" (.vnum 25)).2.2
        = [WriteEvent.fullRecord { net0 with
            freelist := set_upper_limit net0.freelist (2 ^ (32 - 25) - 1),
            NETWORK := get_num_subnet net0.NETWORK 25,
            PREFIX := 25 }]
    ∧ (false = false →
        (Network.set false false net0 "PREFIX" (.vnum 25)).2.1
          = { net0 with
              freelist := set_upper_limit net0.freelist (2 ^ (32 - 25) - 1),
              NETWORK := get_num_subnet net0.NETWORK 25,
              PREFIX := 25 }) :=
  set_PREFIX_rebound net0 false 25 (by decide)

/-! ### C1 -/

/-- Value of `reserve_ip` on an already-relative positive offset with no
second address: the range `[n+1, n+1]` is reserved and saved. -/
theorem reserve_ip_rel_pos (saveErr : Bool) (net : NetRecord) (n : Nat) :
    reserve_ip saveErr net (some (.rel (n + 1))) none true
      = (.unfreed (unfree_range net.freelist (n + 1) none).2,
         (save_free_list saveErr net (unfree_range net.freelist (n + 1) none).1).2.1,
         (save_free_list saveErr net (unfree_range net.freelist (n + 1) none).1).2.2) :=
  rfl

/-- Value of `save_free_list` when the id is present and the store
accepts the update. -/
theorem save_free_list_ok (net : NetRecord) (i : Nat) (hid : net.id = some i)
    (flist : List FreeRange) :
    save_free_list false net flist
      = (some true, { net with freelist := flist }, [WriteEvent.freeListOnly flist]) := by
  unfold save_free_list
  rw [hid]
  rfl

/-- Full evaluation of a successful set of ns_ip on a record with no
previous name-server address: the new offset is reserved (one free-list
write), then the record, re-read after that write, is persisted with
the new offset (the full-record write). -/
theorem setNsIp_no_old (net : NetRecord) (updErr : Bool) (a rel i : Nat)
    (hconv : atorel a net.NETWORK net.PREFIX = some rel) (hrel : rel ≠ 0)
    (hns2 : net.ns_ip = none) (hid : net.id = some i) :
    Network.set updErr false net "ns_ip" (.vnum a)
      = (.ok (some (!updErr)),
         (if updErr then { net with freelist := (unfree_range net.freelist rel none).1 }
          else { net with
                   freelist := (unfree_range net.freelist rel none).1,
                   ns_ip := some rel }),
         [WriteEvent.freeListOnly (unfree_range net.freelist rel none).1,
          WriteEvent.fullRecord { net with
            freelist := (unfree_range net.freelist rel none).1,
            ns_ip := some rel }]) := by
  obtain ⟨n, rfl⟩ := Nat.exists_eq_succ_of_ne_zero hrel
  have hget : Network.get net "ns_ip" = .error .typeErr := by
    unfold Network.get
    rw [hns2]
    rfl
  have hdispatch : Network.set updErr false net "ns_ip" (.vnum a)
      = setNsIp updErr false net (.vnum a) := rfl
  rw [hdispatch]
  unfold setNsIp
  simp only [valNum, hconv, hget, reserve_ip_rel_pos, save_free_list_ok net i hid]
  rfl

/-- C1 counterexample: on net0 (which has no previous name-server
address) setting ns_ip to the valid address 10.0.0.30 succeeds and
issues TWO persisted updates - the free-list write of the implicit
reservation, then the full-record write - not exactly one. -/
theorem set_ns_ip_two_writes_cex :
    (Network.set false false net0 "ns_ip" (.vnum 167772190)).1 = .ok (some true)
    ∧ (Network.set false false net0 "ns_ip" (.vnum 167772190)).2.2.length = 2
    ∧ (Network.set false false net0 "ns_ip" (.vnum 167772190)).2.2.length ≠ 1 :=
  ⟨rfl, rfl, by decide⟩

/-- C1 amended: a successful set of ns_hostname, NETWORK or PREFIX
issues exactly one persisted update; a successful set of ns_ip is NOT
atomic: when no old name-server address exists, it issues exactly two
persisted updates - first the free-list-only write of the reservation,
then the full-record write (with an old address present a further
free-list write of the release precedes these). -/
theorem set_write_count (net : NetRecord) (updErr : Bool) (v : Val) :
    ((Network.set updErr false net "ns_hostname" v).2.2.length = 1
      ∧ (Network.set updErr false net "NETWORK" v).2.2.length = 1
      ∧ (Network.set updErr false net "PREFIX" v).2.2.length = 1)
    ∧ (∀ a rel i, atorel a net.NETWORK net.PREFIX = some rel → rel ≠ 0 →
        net.ns_ip = none → net.id = some i →
        (Network.set updErr false net "ns_ip" (.vnum a)).1 = .ok (some (!updErr))
        ∧ (Network.set updErr false net "ns_ip" (.vnum a)).2.2
            = [WriteEvent.freeListOnly (unfree_range net.freelist rel none).1,
               WriteEvent.fullRecord { net with
                 freelist := (unfree_range net.freelist rel none).1,
                 ns_ip := some rel }]) := by
  refine ⟨⟨rfl, rfl, rfl⟩, ?_⟩
  intro a rel i hconv hrel hns hid
  rw [setNsIp_no_old net updErr a rel i hconv hrel hns hid]
  exact ⟨rfl, rfl⟩

/-- Witness for the amended C1 at net0 and address 10.0.0.30. -/
theorem set_write_count_witness :
    ((Network.set false false net0 "ns_hostname" (.vstr "ns")).2.2.length = 1
      ∧ (Network.set false false net0 "NETWORK" (.vstr "ns")).2.2.length = 1
      ∧ (Network.set false false net0 "PREFIX" (.vstr "ns")).2.2.length = 1)
    ∧ ((Network.set false false net0 "ns_ip" (.vnum 167772190)).1 = .ok (some (!false))
      ∧ (Network.set false false net0 "ns_ip" (.vnum 167772190)).2.2
          = [WriteEvent.freeListOnly (unfree_range net0.freelist 30 none).1,
             WriteEvent.fullRecord { net0 with
               freelist := (unfree_range net0.freelist 30 none).1,
               ns_ip := some 30 }]) :=
  ⟨(set_write_count net0 false (.vstr "ns")).1,
   (set_write_count net0 false (.vstr "ns")).2 167772190 30 1 rfl (by decide) rfl rfl⟩

/-! ### C3 and C7 -/

theorem lookup_append (d d2 : List (String × String)) (name : String) :
    (d ++ d2).lookup name = (d.lookup name).or (d2.lookup name) := by
  induction d with
  | nil => simp
  | cons p rest ih =>
    obtain ⟨k, v⟩ := p
    rw [List.cons_append, List.lookup_cons, List.lookup_cons]
    cases h : (name == k) with
    | true => rfl
    | false => simpa using ih

/-- The running invariant of the `add_to_out_dict` fold: the final
mapping answers lookups by the initial mapping first and otherwise by
the FIRST event with that name, converted to absolute form; every event
either adds one entry or counts one conflict; and every entry of the
final mapping stems from the initial mapping or from an event. -/
theorem foldl_add_entry (N : Nat) : ∀ (evs : List (String × Nat))
    (d : List (String × String)) (c : Nat),
    (∀ name, (evs.foldl (fun a e => add_entry N a e.1 e.2) (d, c)).1.lookup name
        = (d.lookup name).or ((evs.lookup name).map (reltoa N)))
    ∧ (evs.foldl (fun a e => add_entry N a e.1 e.2) (d, c)).1.length
        + (evs.foldl (fun a e => add_entry N a e.1 e.2) (d, c)).2
        = d.length + c + evs.length
    ∧ (∀ p ∈ (evs.foldl (fun a e => add_entry N a e.1 e.2) (d, c)).1,
        p ∈ d ∨ ∃ e ∈ evs, p.1 = e.1 ∧ p.2 = reltoa N e.2)
  | [], d, c => by
    simp
  | (nm, r) :: rest, d, c => by
    rw [List.foldl_cons]
    by_cases h : (d.lookup nm).isSome
    · have step : add_entry N (d, c) (nm, r).1 (nm, r).2 = (d, c + 1) := by
        simp [add_entry, h]
      rw [step]
      obtain ⟨ih1, ih2, ih3⟩ := foldl_add_entry N rest d (c + 1)
      refine ⟨?_, by simpa using by omega, ?_⟩
      · intro name
        rw [ih1 name, List.lookup_cons]
        cases hn : (name == nm) with
        | true =>
          obtain ⟨val, hval⟩ := Option.isSome_iff_exists.mp h
          have : name = nm := by simpa using hn
          subst this
          rw [hval]
          rfl
        | false => rfl
      · intro p hp
        rcases ih3 p hp with hd | ⟨e, he, h1, h2⟩
        · exact Or.inl hd
        · exact Or.inr ⟨e, List.mem_cons_of_mem _ he, h1, h2⟩
    · have step : add_entry N (d, c) (nm, r).1 (nm, r).2
          = (d ++ [(nm, reltoa N r)], c) := by
        simp [add_entry, h]
      rw [step]
      obtain ⟨ih1, ih2, ih3⟩ := foldl_add_entry N rest (d ++ [(nm, reltoa N r)]) c
      have hnone : d.lookup nm = none := Option.not_isSome_iff_eq_none.mp h
      refine ⟨?_, ?_, ?_⟩
      · intro name
        rw [ih1 name, lookup_append, List.lookup_cons]
        cases hn : (name == nm) with
        | true =>
          have : name = nm := by simpa using hn
          subst this
          simp [hnone, List.lookup_cons]
        | false =>
          simp [hn, List.lookup_cons, Option.or_none]
      · have : (d ++ [(nm, reltoa N r)]).length = d.length + 1 := by simp
        rw [this] at ih2
        simpa using by omega
      · intro p hp
        rcases ih3 p hp with hd | ⟨e, he, h1, h2⟩
        · rcases List.mem_append.mp hd with hd1 | hd2
          · exact Or.inl hd1
          · have : p = (nm, reltoa N r) := by simpa using hd2
            subst this
            exact Or.inr ⟨(nm, r), List.mem_cons_self _ _, rfl, rfl⟩
        · exact Or.inr ⟨e, List.mem_cons_of_mem _ he, h1, h2⟩

/-- C3: with usage links present and a name-server offset stored,
`resolve_used_ips` succeeds; every lookup in the returned mapping is
answered by the FIRST insertion event bearing that name (first-write
wins, the name-server entry coming last), converted to absolute form;
each event either adds an entry or is counted as one reported conflict
(so resolution continues past conflicts); and every returned entry is
the absolute form of some event offset. -/
theorem resolve_used_ips_first_write_wins (L : EntityLookups) (net : NetRecord)
    (links : UsageLinks) (rns : Nat) (husedby : net.usedby = some links)
    (hns : net.ns_ip = some rns) :
    ∃ out conflicts,
      resolve_used_ips L net = .ok ⟨out, conflicts, false⟩
      ∧ (∀ name, out.lookup name
          = (((entity_events L links ++ [(net.ns_hostname, rns)]).lookup name).map
              (reltoa net.NETWORK)))
      ∧ out.length + conflicts
          = (entity_events L links ++ [(net.ns_hostname, rns)]).length
      ∧ (∀ p ∈ out, ∃ e ∈ entity_events L links ++ [(net.ns_hostname, rns)],
          p.1 = e.1 ∧ p.2 = reltoa net.NETWORK e.2) := by
  have hfold := foldl_add_entry net.NETWORK
    (entity_events L links ++ [(net.ns_hostname, rns)]) [] 0
  rw [List.foldl_append, List.foldl_cons, List.foldl_nil] at hfold
  obtain ⟨hf1, hf2, hf3⟩ := hfold
  set acc := (entity_events L links).foldl
    (fun a e => add_entry net.NETWORK a e.1 e.2) ([], 0) with hacc
  set res := add_entry net.NETWORK acc net.ns_hostname rns with hres
  have hstep : add_to_out_dict net.NETWORK acc net.ns_hostname net.ns_ip = .ok res := by
    rw [hns, hres]
    by_cases hpr : (acc.1.lookup net.ns_hostname).isSome <;>
      simp [add_to_out_dict, add_entry, hpr]
  have hrun : resolve_used_ips L net = .ok ⟨res.1, res.2, false⟩ := by
    have hbody : resolve_used_ips L net
        = match add_to_out_dict net.NETWORK acc net.ns_hostname net.ns_ip with
          | .error e => .error e
          | .ok (d, c) => .ok ⟨d, c, false⟩ := by
      unfold resolve_used_ips
      rw [husedby]
    rw [hbody, hstep]
  refine ⟨res.1, res.2, hrun, ?_, ?_, ?_⟩
  · intro name
    have := hf1 name
    simpa using this
  · simpa using hf2
  · intro p hp
    rcases hf3 p hp with hd | he
    · simp at hd
    · exact he

/-- Witness for C3 at net3, whose two switch links both resolve to the
name node1: the scenario of the spec, one entry kept for node1 and one
conflict reported. -/
theorem resolve_used_ips_first_write_wins_witness :
    ∃ out conflicts,
      resolve_used_ips L0 net3 = .ok ⟨out, conflicts, false⟩
      ∧ (∀ name, out.lookup name
          = (((entity_events L0 ⟨[], [1, 2], []⟩ ++ [(net3.ns_hostname, 254)]).lookup name).map
              (reltoa net3.NETWORK)))
      ∧ out.length + conflicts
          = (entity_events L0 ⟨[], [1, 2], []⟩ ++ [(net3.ns_hostname, 254)]).length
      ∧ (∀ p ∈ out, ∃ e ∈ entity_events L0 ⟨[], [1, 2], []⟩ ++ [(net3.ns_hostname, 254)],
          p.1 = e.1 ∧ p.2 = reltoa net3.NETWORK e.2) :=
  resolve_used_ips_first_write_wins L0 net3 ⟨[], [1, 2], []⟩ 254 rfl rfl

/-- C7: a record without the usage-links key logs the no-usage error and
yields the empty mapping, while a record whose links exist but are all
empty succeeds without that error and yields exactly the name-server
entry - two observably distinct outcomes. -/
theorem resolve_used_ips_no_usage (L : EntityLookups) (net : NetRecord) :
    (net.usedby = none → resolve_used_ips L net = .ok ⟨[], 0, true⟩)
    ∧ (∀ rns, net.usedby = some ⟨[], [], []⟩ → net.ns_ip = some rns →
        resolve_used_ips L net
          = .ok ⟨[(net.ns_hostname, reltoa net.NETWORK rns)], 0, false⟩) := by
  constructor
  · intro h
    unfold resolve_used_ips
    rw [h]
  · intro rns h hns
    unfold resolve_used_ips
    rw [h, hns]
    rfl

/-- Witness for C7: net0 has no usedby key at all, net4 has one with
every kind empty. -/
theorem resolve_used_ips_no_usage_witness :
    resolve_used_ips L0 net0 = .ok ⟨[], 0, true⟩
    ∧ resolve_used_ips L0 net4
        = .ok ⟨[(net4.ns_hostname, reltoa net4.NETWORK 254)], 0, false⟩ :=
  ⟨(resolve_used_ips_no_usage L0 net0).1 rfl,
   (resolve_used_ips_no_usage L0 net4).2 254 rfl rfl⟩

/-! ### C2 -/

theorem atorel_base_add (base p E : Nat) (hE : E ≤ (1 <<< (32 - p)) - 1) :
    atorel (base + E) base p = some E := by
  have hc : (0 : Nat) < 1 <<< (32 - p) := by
    rw [Nat.one_shiftLeft]
    exact Nat.two_pow_pos _
  unfold atorel
  rw [if_pos (by omega)]
  rw [Nat.add_sub_cancel_left]

theorem unfree_pieces_single_top (E : Nat) (h2 : 2 ≤ E) :
    unfree_pieces E E [⟨1, E⟩] = [⟨1, E - 1⟩] := by
  show (if (⟨1, E⟩ : FreeRange).stop < E ∨ E < (⟨1, E⟩ : FreeRange).start
        then [(⟨1, E⟩ : FreeRange)]
        else (if (⟨1, E⟩ : FreeRange).start < E then [⟨1, E - 1⟩] else [])
          ++ (if E < (⟨1, E⟩ : FreeRange).stop then [⟨E + 1, E⟩] else []))
      ++ unfree_pieces E E [] = [⟨1, E - 1⟩]
  rw [if_neg (by simp only; omega), if_pos (by simp only; omega),
    if_neg (by simp only; omega)]
  rfl

theorem unfree_removed_single_top (E : Nat) (h1 : 1 ≤ E) :
    unfree_removed E E [⟨1, E⟩] = 1 := by
  show (min E E + 1 - max 1 E) + unfree_removed E E [] = 1
  have : unfree_removed E E [] = 0 := rfl
  rw [this]
  omega

theorem unfree_range_single_top (E : Nat) (h2 : 2 ≤ E) :
    unfree_range [⟨1, E⟩] E none = ([⟨1, E - 1⟩], true) := by
  show (unfree_pieces E E [⟨1, E⟩], unfree_removed E E [⟨1, E⟩] == E + 1 - E)
      = ([⟨1, E - 1⟩], true)
  rw [unfree_pieces_single_top E h2, unfree_removed_single_top E (by omega)]
  have : E + 1 - E = 1 := by omega
  rw [this]
  rfl

/-- C2: creating a network with CIDR length p and no explicit
name-server address inserts the record with the single initial free
range `[1, 2^(32-p)-2]`, then reserves the HIGHEST offset of that range
for the name server: the final record stores offset `2^(32-p)-2`, its
free list has lost exactly that top offset, and reading ns_ip yields
the absolute dotted-quad of base + `2^(32-p)-2`. -/
theorem create_initial_freelist (name : String) (base p : Nat) (hn : Option String)
    (g : String) (hp : p ≤ 30) :
    ∃ res, Network.create name base p hn none g = .ok res
      ∧ res.inserted.freelist = [⟨1, 2 ^ (32 - p) - 2⟩]
      ∧ res.inserted.ns_ip = none
      ∧ res.final.ns_ip = some (2 ^ (32 - p) - 2)
      ∧ res.final.freelist = [⟨1, 2 ^ (32 - p) - 2 - 1⟩]
      ∧ Network.get res.final "ns_ip"
          = .ok (some (.vstr (ntoa (get_num_subnet base p + (2 ^ (32 - p) - 2))))) := by
  have epow : (1 <<< (32 - p)) = 2 ^ (32 - p) := Nat.one_shiftLeft _
  have h4 : 4 ≤ 2 ^ (32 - p) := by
    have h1 : 2 ≤ 32 - p := by omega
    have h2 : (2 : Nat) ^ 2 ≤ 2 ^ (32 - p) := Nat.pow_le_pow_right (by omega) h1
    simpa using h2
  have hE2 : 2 ≤ (1 <<< (32 - p)) - 2 := by omega
  have hconv : atorel (get_num_subnet base p + ((1 <<< (32 - p)) - 2))
      (createRec name base p hn g).NETWORK (createRec name base p hn g).PREFIX
      = some ((1 <<< (32 - p)) - 2) := by
    show atorel (get_num_subnet base p + ((1 <<< (32 - p)) - 2))
        (get_num_subnet base p) p = some ((1 <<< (32 - p)) - 2)
    exact atorel_base_add _ _ _ (by omega)
  have hset := setNsIp_no_old (createRec name base p hn g) false
    (get_num_subnet base p + ((1 <<< (32 - p)) - 2)) ((1 <<< (32 - p)) - 2) 1
    hconv (by omega) rfl rfl
  have hcreateEq : Network.create name base p hn none g
      = (match Network.set false false (createRec name base p hn g) "ns_ip"
           (.vnum (get_num_subnet base p + ((1 <<< (32 - p)) - 2))) with
         | (.error e, _, _) => .error e
         | (.ok _, st, ws) => .ok ⟨createRec name base p hn g, st,
             WriteEvent.insert (createRec name base p hn g) :: ws⟩) := rfl
  rw [hcreateEq, hset]
  have hflrec : (createRec name base p hn g).freelist
      = [⟨1, (1 <<< (32 - p)) - 2⟩] := rfl
  have hunf := unfree_range_single_top ((1 <<< (32 - p)) - 2) hE2
  refine ⟨_, rfl, ?_, rfl, ?_, ?_, ?_⟩
  · rw [hflrec, epow]
  · show some ((1 <<< (32 - p)) - 2) = some (2 ^ (32 - p) - 2)
    rw [epow]
  · show (unfree_range (createRec name base p hn g).freelist
        ((1 <<< (32 - p)) - 2) none).1 = [⟨1, 2 ^ (32 - p) - 2 - 1⟩]
    rw [hflrec, hunf, epow]
  · show Except.ok (some (Val.vstr (ntoa
        (get_num_subnet base p + ((1 <<< (32 - p)) - 2))))) = _
    rw [epow]

/-- Witness for C2: the create scenario of the spec, whose name-server
address comes out as 10.0.0.254. -/
theorem create_initial_freelist_witness :
    (∃ res, Network.create "cluster0" 167772160 24 none none "master" = .ok res
      ∧ res.inserted.freelist = [⟨1, 2 ^ (32 - 24) - 2⟩]
      ∧ res.inserted.ns_ip = none
      ∧ res.final.ns_ip = some (2 ^ (32 - 24) - 2)
      ∧ res.final.freelist = [⟨1, 2 ^ (32 - 24) - 2 - 1⟩]
      ∧ Network.get res.final "ns_ip"
          = .ok (some (.vstr (ntoa (get_num_subnet 167772160 24 + (2 ^ (32 - 24) - 2))))))
    ∧ ntoa (get_num_subnet 167772160 24 + (2 ^ (32 - 24) - 2)) = "10.0.0.254" :=
  ⟨create_initial_freelist "cluster0" 167772160 24 none "master" (by decide), by decide⟩

end Luna
